import Mathlib

/-!
Verification development for the `rs-lb-test` reverse proxy / load balancer.

Strings from the Rust source are embedded as `List Char` (`Str`); the Rust
`str` operations used by the code (`trim_start_matches("/")`,
`trim_end_matches("/")`, `strip_prefix`, `starts_with`, and the `Ord`
comparison used by `Vec::sort`) are modelled below, byte order on ASCII
agreeing with `Char` order.
-/

set_option maxRecDepth 10000

abbrev Str := List Char

/-- Rust `str::trim_start_matches("/")`: drop every leading `'/'`. -/
def trimStartSlashes : Str → Str
  | [] => []
  | c :: rest => if c = '/' then trimStartSlashes rest else c :: rest

/-- Rust `str::trim_end_matches("/")`: drop every trailing `'/'`. -/
def trimEndSlashes (s : Str) : Str :=
  (trimStartSlashes s.reverse).reverse

/-- Rust `str::strip_prefix(p)`: `Some` of the remainder when `p` leads `s`. -/
def stripPre (p s : Str) : Option Str :=
  if p.isPrefixOf s then some (s.drop p.length) else none

/-- Rust `Ord` on `str`: strict lexicographic byte order. -/
def lexLt : Str → Str → Bool
  | [], [] => false
  | [], _ :: _ => true
  | _ :: _, [] => false
  | a :: as_, b :: bs => if a < b then true else if b < a then false else lexLt as_ bs

/-- The ascending order used to model `Vec::sort` on strings. -/
def lexLe (a b : Str) : Prop := lexLt b a = false

instance : DecidableRel lexLe := fun a b => by
  unfold lexLe; infer_instance

theorem lexLt_irrefl : ∀ a : Str, lexLt a a = false := by
  intro a
  induction a with
  | nil => rfl
  | cons x xs ih => simp [lexLt, ih]

theorem lexLt_asymm : ∀ a b : Str, lexLt a b = true → lexLt b a = false := by
  intro a
  induction a with
  | nil => intro b _; cases b <;> rfl
  | cons x xs ih =>
    intro b hab
    cases b with
    | nil => simp [lexLt] at hab
    | cons y ys =>
      rcases lt_trichotomy x y with hxy | hxy | hxy
      · simp [lexLt, hxy, asymm hxy, not_lt_of_lt hxy]
      · subst hxy
        simp only [lexLt, lt_irrefl, if_false] at hab ⊢
        exact ih ys hab
      · simp [lexLt, hxy, asymm hxy, not_lt_of_lt hxy] at hab

theorem lexLt_trans : ∀ a b c : Str,
    lexLt a b = true → lexLt b c = true → lexLt a c = true := by
  intro a
  induction a with
  | nil =>
    intro b c hab hbc
    cases b with
    | nil => simp [lexLt] at hab
    | cons y ys =>
      cases c with
      | nil => simp [lexLt] at hbc
      | cons z zs => rfl
  | cons x xs ih =>
    intro b c hab hbc
    cases b with
    | nil => simp [lexLt] at hab
    | cons y ys =>
      cases c with
      | nil => simp [lexLt] at hbc
      | cons z zs =>
        rcases lt_trichotomy x y with hxy | hxy | hxy
        · rcases lt_trichotomy y z with hyz | hyz | hyz
          · simp [lexLt, lt_trans hxy hyz]
          · subst hyz; simp [lexLt, hxy]
          · simp [lexLt, hyz, asymm hyz, not_lt_of_lt hyz] at hbc
        · subst hxy
          rcases lt_trichotomy x z with hxz | hxz | hxz
          · simp [lexLt, hxz]
          · subst hxz
            simp only [lexLt, lt_irrefl, if_false] at hab hbc ⊢
            exact ih ys zs hab hbc
          · simp [lexLt, hxz, asymm hxz, not_lt_of_lt hxz] at hbc
        · simp [lexLt, hxy, asymm hxy, not_lt_of_lt hxy] at hab

theorem lexLt_eq_of_both_false : ∀ a b : Str,
    lexLt a b = false → lexLt b a = false → a = b := by
  intro a
  induction a with
  | nil =>
    intro b hab _
    cases b with
    | nil => rfl
    | cons y ys => simp [lexLt] at hab
  | cons x xs ih =>
    intro b hab hba
    cases b with
    | nil => simp [lexLt] at hba
    | cons y ys =>
      rcases lt_trichotomy x y with hxy | hxy | hxy
      · simp [lexLt, hxy] at hab
      · subst hxy
        simp only [lexLt, lt_irrefl, if_false] at hab hba
        rw [ih ys hab hba]
      · simp [lexLt, hxy] at hba

instance : IsTotal Str lexLe := by
  constructor
  intro a b
  unfold lexLe
  rcases hab : lexLt a b with _ | _
  · right; rfl
  · left; exact lexLt_asymm a b hab

instance : IsTrans Str lexLe := by
  constructor
  intro a b c hab hbc
  unfold lexLe at hab hbc ⊢
  rcases hca : lexLt c a with _ | _
  · rfl
  · exfalso
    rcases hbcc : lexLt b c with _ | _
    · have hbc' := lexLt_eq_of_both_false b c hbcc hbc
      subst hbc'
      rw [hca] at hab
      exact Bool.noConfusion hab
    · have := lexLt_trans b c a hbcc hca
      rw [this] at hab
      exact Bool.noConfusion hab

/-- A proper list-prefix is strictly smaller in the lexicographic order. -/
theorem lexLt_of_proper_pre : ∀ a b : Str, a <+: b → a ≠ b → lexLt a b = true := by
  intro a
  induction a with
  | nil =>
    intro b _ hne
    cases b with
    | nil => exact absurd rfl hne
    | cons y ys => rfl
  | cons x xs ih =>
    intro b hab hne
    rcases hab with ⟨t, ht⟩
    subst ht
    simp only [List.cons_append, lexLt, lt_irrefl, if_false]
    exact ih (xs ++ t) ⟨t, rfl⟩ (fun hcontra => hne (congrArg (List.cons x) hcontra))

/-!
Configuration and listener rules (`config.rs`, `listener.rs`).
The Rust field `path_prefix` is called `path_pre` here.
-/

structure ListenerRuleConfiguration where
  target_group : Str
  path_pre : Str
  path_rewrite : Str
deriving DecidableEq

structure ListenerRule where
  target_group : Str
  path_pre : Str
  path_rewrite : Str
deriving DecidableEq

/-- `impl From<ListenerRuleConfiguration> for ListenerRule` (listener.rs:9-32):
strip leading and trailing `'/'` from both the raw path-prefix and the raw
rewrite, then re-prepend a single `'/'`. -/
def ruleFromConfiguration (c : ListenerRuleConfiguration) : ListenerRule :=
  { target_group := c.target_group,
    path_pre := '/' :: trimEndSlashes (trimStartSlashes c.path_pre),
    path_rewrite := '/' :: trimEndSlashes (trimStartSlashes c.path_rewrite) }

/-- The canonical match key built in `LoadBalancer::new` (load_balancer.rs:34):
`format!("{}/", r.path_prefix.trim_end_matches("/"))`. -/
def matchKey (r : ListenerRule) : Str :=
  trimEndSlashes r.path_pre ++ ['/']

/-- The sorted key list built in `LoadBalancer::new` (load_balancer.rs:32-38):
collect the keys, `sort()` ascending by string order, then `reverse()`.
All keys are their own sort keys, so the stable Rust sort yields exactly the
unique `lexLe`-sorted permutation modelled by `insertionSort`. -/
def buildKeys (rules : List ListenerRule) : List Str :=
  (List.insertionSort lexLe (rules.map matchKey)).reverse

/-- `LoadBalancer::match_uri` (load_balancer.rs:87-92): first stored key that
is a string prefix of the request path. -/
def match_uri (keys : List Str) (uri : Str) : Option Str :=
  keys.find? (fun r => r.isPrefixOf uri)

/-!
HTTP data plane model (`load_balancer.rs`, `cache.rs`).
-/

structure HttpResponse where
  status : Nat
  body : Str
deriving DecidableEq

structure InboundRequest where
  scheme : Option Str
  authority : Option Str
  path : Str
  query : Option Str
deriving DecidableEq

/-- `request.uri().to_string()` — the full URI used as the cache key. -/
def renderUri (r : InboundRequest) : Str :=
  (match r.scheme with
    | none => []
    | some s => s ++ [':', '/', '/'])
  ++ (match r.authority with
    | none => []
    | some a => a)
  ++ r.path
  ++ (match r.query with
    | none => []
    | some q => '?' :: q)

/-- `CachedResponse` (cache.rs:48-64); `set_time` is an instant in an abstract
discrete time (`Nat`). -/
structure CachedResponse where
  inner : HttpResponse
  set_time : Nat
deriving DecidableEq

/-- `CachedResponse::is_expired` (cache.rs:61-63): `set_time.elapsed() > ttl`. -/
def CachedResponse.is_expired (c : CachedResponse) (now ttl : Nat) : Bool :=
  now - c.set_time > ttl

/-- `RequestCache` (cache.rs:12-16): the concurrent map is modelled as an
association list with unique keys. -/
structure RequestCache where
  entries : List (Str × CachedResponse)
  ttl : Nat
deriving DecidableEq

/-- `RequestCache::get` (cache.rs:30-32). Note: no expiry check, and no
dependence on the current time. -/
def RequestCache.get (c : RequestCache) (key : Str) : Option HttpResponse :=
  (c.entries.lookup key).map (fun e => e.inner)

/-- `RequestCache::set` (cache.rs:34-37): insert, replacing any entry at the
same key. -/
def RequestCache.set (c : RequestCache) (key : Str) (r : HttpResponse) (now : Nat) :
    RequestCache :=
  { c with entries := (key, ⟨r, now⟩) :: c.entries.filter (fun p => !(p.1 == key)) }

/-- One pass of `RequestCache::cleanup_thread` (cache.rs:39-45):
`retain(|_, v| !v.is_expired(ttl))` executed at instant `now`. -/
def RequestCache.cleanupPass (c : RequestCache) (now : Nat) : RequestCache :=
  { c with entries := c.entries.filter (fun p => !(p.2.is_expired now c.ttl)) }

/-- `LoadBalancer::handle_connection` (load_balancer.rs:94-125), with the
matched-rule delegation abstracted by `handlers` (the `listener_targets` map).
Returns the response together with the cache state after the request. -/
def LoadBalancer.handleConnection (keys : List Str)
    (handlers : Str → InboundRequest → HttpResponse)
    (cache : Option RequestCache) (now : Nat) (req : InboundRequest) :
    HttpResponse × Option RequestCache :=
  let uri := renderUri req
  match cache.bind (fun c => c.get uri) with
  | some r => (r, cache)
  | none =>
    let response :=
      match match_uri keys req.path with
      | none => { status := 404, body := [] }
      | some k => handlers k req
    (response, cache.map (fun c => c.set uri response now))

/-!
Request URL rewriting and the per-rule handler
(`ListenerRuleHandler::handle_connection`, load_balancer.rs:136-238).
`PathAndQuery::try_from` / `Uri::builder` are modelled as carrying the string
content through unchanged.
-/

structure ForwardUri where
  path_and_query : Str
  scheme : Option Str
  authority : Option Str
deriving DecidableEq

/-- The URL rewrite of load_balancer.rs:166-195, for rule rewrite
`path_rewrite` and selected target graft URI `graft`. `none` models the
`expect` panic when the strip of `path_rewrite` fails. -/
def rewriteUri (path_rewrite graft : Str) (req : InboundRequest) : Option ForwardUri :=
  match stripPre path_rewrite req.path with
  | none => none
  | some stripped =>
    let sanitised := trimStartSlashes stripped
    let rewritten_path :=
      if graft = [] then '/' :: sanitised
      else '/' :: (graft ++ '/' :: sanitised)
    let rewritten_path_and_query :=
      match req.query with
      | none => rewritten_path
      | some q => rewritten_path ++ '?' :: q
    some { path_and_query := rewritten_path_and_query,
           scheme := req.scheme,
           authority := req.authority }

/-- Outcome of the raced upstream forward in load_balancer.rs:215-237:
either the upstream answered (here already with collected body), the
connection timeout fired first, the send returned an error, or collecting
the response body failed. -/
inductive UpstreamEvent where
  | response (r : HttpResponse)
  | timeout
  | sendError
  | bodyError
deriving DecidableEq

/-- A handler run either replies with an HTTP response or panics
(`expect`/`panic!` in the source). -/
inductive HandlerOutcome where
  | reply (r : HttpResponse)
  | panic_ (msg : String)
deriving DecidableEq

/-- One pool slot of the healthy list as seen by the handler: whether
borrowing a pooled connection succeeds, and the target's graft URI. -/
structure PoolEntry where
  borrowOk : Bool
  uri : Str
deriving DecidableEq

/-- `ListenerRuleHandler::handle_connection` (load_balancer.rs:136-238).
`pool` is the healthy list behind the read lock, `counter` the round-robin
counter value, `event` the outcome of the raced forward. -/
def handleRule (pool : List PoolEntry) (counter : Nat) (path_rewrite : Str)
    (req : InboundRequest) (event : UpstreamEvent) : HandlerOutcome :=
  if pool.length = 0 then .reply { status := 503, body := [] }
  else
    let selection := counter % pool.length
    match pool.get? selection with
    | none => .panic_ "Cannot find connection"
    | some c =>
      if !c.borrowOk then .reply { status := 500, body := [] }
      else
        match rewriteUri path_rewrite c.uri req with
        | none => .panic_ "Failed to strip prefix for matched path. This should not happen."
        | some _ =>
          match event with
          | .timeout => .reply { status := 504, body := [] }
          | .response r => .reply r
          | .sendError => .panic_ "Failed to send request"
          | .bodyError => .panic_ "Failed to get body"

/-!
Health-check statistics (`health_monitor.rs:74-117`) and the construction of
`HealthCheckTarget` from a group's health-check configuration
(`health_monitor.rs:239-252`).
-/

structure TargetGroupHealthCheckConfiguration where
  path : Str
  enabled : Bool
  timeout : Nat
  interval : Nat
  success_threshold : Nat
  failure_threshold : Nat
deriving DecidableEq

inductive HealthCheckStats where
  | SuccessfulCheckCount (n : Nat)
  | UnsuccessfulCheckCount (n : Nat)
deriving DecidableEq

/-- `HealthCheckStats::new_healthy` (health_monitor.rs:80-82). -/
def HealthCheckStats.new_healthy : HealthCheckStats := .UnsuccessfulCheckCount 0

/-- `HealthCheckStats::register_health_check` (health_monitor.rs:107-116). -/
def HealthCheckStats.register_health_check (is_successful : Bool) :
    HealthCheckStats → HealthCheckStats
  | .UnsuccessfulCheckCount 0 =>
      if is_successful then .UnsuccessfulCheckCount 0 else .UnsuccessfulCheckCount 1
  | .UnsuccessfulCheckCount (n + 1) =>
      if is_successful then .UnsuccessfulCheckCount n else .UnsuccessfulCheckCount (n + 2)
  | .SuccessfulCheckCount 0 =>
      if is_successful then .SuccessfulCheckCount 1 else .SuccessfulCheckCount 0
  | .SuccessfulCheckCount (n + 1) =>
      if is_successful then .SuccessfulCheckCount (n + 2) else .SuccessfulCheckCount n

/-- `HealthCheckStats::check_health` (health_monitor.rs:84-97), returning the
updated stats together with the returned classification (`true` = healthy). -/
def HealthCheckStats.check_health (failure_threshold success_threshold : Nat) :
    HealthCheckStats → HealthCheckStats × Bool
  | .UnsuccessfulCheckCount count =>
      if count > failure_threshold then (.SuccessfulCheckCount 0, false)
      else (.UnsuccessfulCheckCount count, true)
  | .SuccessfulCheckCount count =>
      if count > success_threshold then (.UnsuccessfulCheckCount 0, true)
      else (.SuccessfulCheckCount count, false)

/-- The stats-relevant fields of `HealthCheckTarget`. -/
structure HealthCheckTarget where
  health_check_stats : HealthCheckStats
  success_threshold : Nat
  failure_threshold : Nat
deriving DecidableEq

/-- The construction in `TargetGroupHealthCheck::new` (health_monitor.rs:245-251),
exactly as written there: the `failure_threshold` field is filled from the
configuration's `success_threshold` and vice versa. -/
def newHealthCheckTarget (cfg : TargetGroupHealthCheckConfiguration) : HealthCheckTarget :=
  { health_check_stats := HealthCheckStats.new_healthy,
    failure_threshold := cfg.success_threshold,
    success_threshold := cfg.failure_threshold }

/-- One probe as executed by the monitor: `run_check_health` registers the
outcome (health_monitor.rs:151-211), then `is_healthy` applies
`check_health(failure_threshold, success_threshold)` (health_monitor.rs:146-149). -/
def probeStep (f s : Nat) (st : HealthCheckStats) (outcome : Bool) :
    HealthCheckStats × Bool :=
  HealthCheckStats.check_health f s (HealthCheckStats.register_health_check outcome st)

/-- Fold a sequence of probe outcomes through `probeStep`. -/
def runProbes (f s : Nat) (st : HealthCheckStats) (l : List Bool) : HealthCheckStats :=
  l.foldl (fun acc o => (probeStep f s acc o).1) st

def countFailures (l : List Bool) : Nat := (l.filter (fun o => !o)).length

def countSuccesses (l : List Bool) : Nat := (l.filter (fun o => o)).length

def HealthCheckStats.isUnsuccessfulCount : HealthCheckStats → Bool
  | .UnsuccessfulCheckCount _ => true
  | .SuccessfulCheckCount _ => false

def HealthCheckStats.isSuccessfulCount : HealthCheckStats → Bool
  | .SuccessfulCheckCount _ => true
  | .UnsuccessfulCheckCount _ => false

/-!
The health monitor's list-migration passes (`health_monitor.rs:285-347`).
Pools and health-check targets are tracked by identifiers; probing plus the
subsequent `is_healthy()` answer for a target is abstracted by the predicate
`isHealthyAfter` on target identifiers.
-/

structure TargetGroupState where
  source : List Nat
  unhealthyPool : List Nat
  healthyHC : List Nat
  unhealthyHC : List Nat
deriving DecidableEq

/-- `Vec::remove(i)`: the removed element and the remaining list; `none`
models the out-of-bounds panic. -/
def removeAt (l : List Nat) (i : Nat) : Option (Nat × List Nat) :=
  match l.get? i with
  | none => none
  | some x => some (x, l.eraseIdx i)

/-- `TargetGroupHealthCheck::check_unhealthy_connection_pools`
(health_monitor.rs:318-347) as written in the source (the stray `if` token at
line 326 carries no code and is elided): collect the indices `idx` of the
*unhealthy* health-check list whose target answers `!is_healthy()`, reverse
them, then for each one remove `source_connection_pool[idx]` and
`healthy_health_check_connection_pool[idx]` and append them to the unhealthy
lists. -/
def check_unhealthy_connection_pools (isHealthyAfter : Nat → Bool)
    (st : TargetGroupState) : Option TargetGroupState :=
  let healthy_indexes :=
    (((st.unhealthyHC.enum).filter (fun p => !(isHealthyAfter p.2))).map
      (fun p => p.1)).reverse
  healthy_indexes.foldl
    (fun acc idx =>
      acc.bind (fun s =>
        (removeAt s.source idx).bind (fun cpair =>
          (removeAt s.healthyHC idx).map (fun tpair =>
            { source := cpair.2,
              unhealthyPool := s.unhealthyPool ++ [cpair.1],
              healthyHC := tpair.2,
              unhealthyHC := s.unhealthyHC ++ [tpair.1] }))))
    (some st)

/-- `TargetGroupHealthCheck::check_healthy_connection_pools`
(health_monitor.rs:285-316), same elision of the stray `let` at line 304:
collect the indices of the *healthy* health-check list whose target answers
`!is_healthy()`, reverse, and move pool and health-check target from the
healthy lists to the unhealthy lists. -/
def check_healthy_connection_pools (isHealthyAfter : Nat → Bool)
    (st : TargetGroupState) : Option TargetGroupState :=
  let unhealthy_indexes :=
    (((st.healthyHC.enum).filter (fun p => !(isHealthyAfter p.2))).map
      (fun p => p.1)).reverse
  unhealthy_indexes.foldl
    (fun acc idx =>
      acc.bind (fun s =>
        (removeAt s.source idx).bind (fun cpair =>
          (removeAt s.healthyHC idx).map (fun tpair =>
            { source := cpair.2,
              unhealthyPool := s.unhealthyPool ++ [cpair.1],
              healthyHC := tpair.2,
              unhealthyHC := s.unhealthyHC ++ [tpair.1] }))))
    (some st)

/-!
Claim theorems.
-/

/-- Claim C1, counterexample: with TTL 10, an entry stored at instant 0
survives the scheduled cleanup pass at instant 10 (its age there is exactly
the TTL, and `retain` keeps entries with `elapsed > ttl` false), and a read
at instant 15 still returns it although `is_expired` holds at that moment:
`get` performs no age check, so an entry older than TTL is returned. -/
theorem c1_counterexample :
    RequestCache.cleanupPass ⟨[(['k'], ⟨⟨200, []⟩, 0⟩)], 10⟩ 10
      = ⟨[(['k'], ⟨⟨200, []⟩, 0⟩)], 10⟩
    ∧ RequestCache.get ⟨[(['k'], ⟨⟨200, []⟩, 0⟩)], 10⟩ ['k'] = some ⟨200, []⟩
    ∧ CachedResponse.is_expired ⟨⟨200, []⟩, 0⟩ 15 10 = true := by
  decide

/-- Claim C1, amended: `RequestCache.get` performs no expiry check — it
returns the stored entry whenever the key is present, regardless of the
entry's age — and entries are removed only by the periodic cleanup pass,
immediately after which every remaining entry has age at most TTL. -/
theorem c1_thm (c : RequestCache) (now : Nat) (k : Str)
    (p : Str × CachedResponse) (e : CachedResponse) :
    (p ∈ (c.cleanupPass now).entries → now - p.2.set_time ≤ c.ttl)
    ∧ (c.entries.lookup k = some e → c.get k = some e.inner) := by
  constructor
  · intro hmem
    have h := (List.mem_filter.mp hmem).2
    simp only [CachedResponse.is_expired, Bool.not_eq_true', decide_eq_false_iff_not,
      not_lt] at h
    exact h
  · intro hl
    unfold RequestCache.get
    rw [hl]
    rfl

theorem c1_witness :
    ((10 : Nat) - 0 ≤ 10)
    ∧ RequestCache.get ⟨[(['k'], ⟨⟨200, []⟩, 0⟩)], 10⟩ ['k']
        = some (⟨⟨200, []⟩, 0⟩ : CachedResponse).inner :=
  ⟨(c1_thm ⟨[(['k'], ⟨⟨200, []⟩, 0⟩)], 10⟩ 10 ['k'] (['k'], ⟨⟨200, []⟩, 0⟩) ⟨⟨200, []⟩, 0⟩).1
      (by decide),
   (c1_thm ⟨[(['k'], ⟨⟨200, []⟩, 0⟩)], 10⟩ 10 ['k'] (['k'], ⟨⟨200, []⟩, 0⟩) ⟨⟨200, []⟩, 0⟩).2
      (by decide)⟩

/-- Claim C8, confirmed: in `UnsuccessfulCheckCount` (spec name
`ConsecutiveFailures`) a successful probe decrements the counter clamping at
0 and a failed probe increments it, and `check_health` demotes to unhealthy
resetting the stats to `SuccessfulCheckCount 0` exactly when the counter
exceeds the failure threshold; symmetrically for `SuccessfulCheckCount`
(spec name `ConsecutiveSuccesses`) and the success threshold. -/
theorem c8_thm (f s n : Nat) :
    HealthCheckStats.register_health_check true (.UnsuccessfulCheckCount 0)
      = .UnsuccessfulCheckCount 0
    ∧ HealthCheckStats.register_health_check true (.UnsuccessfulCheckCount (n + 1))
      = .UnsuccessfulCheckCount n
    ∧ HealthCheckStats.register_health_check false (.UnsuccessfulCheckCount n)
      = .UnsuccessfulCheckCount (n + 1)
    ∧ HealthCheckStats.register_health_check false (.SuccessfulCheckCount 0)
      = .SuccessfulCheckCount 0
    ∧ HealthCheckStats.register_health_check false (.SuccessfulCheckCount (n + 1))
      = .SuccessfulCheckCount n
    ∧ HealthCheckStats.register_health_check true (.SuccessfulCheckCount n)
      = .SuccessfulCheckCount (n + 1)
    ∧ HealthCheckStats.check_health f s (.UnsuccessfulCheckCount n)
      = (if n > f then (.SuccessfulCheckCount 0, false) else (.UnsuccessfulCheckCount n, true))
    ∧ HealthCheckStats.check_health f s (.SuccessfulCheckCount n)
      = (if n > s then (.UnsuccessfulCheckCount 0, true) else (.SuccessfulCheckCount n, false)) := by
  refine ⟨rfl, rfl, ?_, rfl, rfl, ?_, rfl, rfl⟩
  · cases n <;> rfl
  · cases n <;> rfl

/-- `register_health_check` keeps an `UnsuccessfulCheckCount` state in that
constructor, and the counter grows by at most the number of failures in the
single registered outcome. -/
theorem register_unsucc (o : Bool) (n : Nat) :
    ∃ r, HealthCheckStats.register_health_check o (.UnsuccessfulCheckCount n)
          = .UnsuccessfulCheckCount r ∧ r ≤ n + countFailures [o] := by
  cases o with
  | false =>
    cases n with
    | zero => exact ⟨1, rfl, by simp [countFailures]⟩
    | succ k => exact ⟨k + 2, rfl, by simp [countFailures]⟩
  | true =>
    cases n with
    | zero => exact ⟨0, rfl, by simp [countFailures]⟩
    | succ k => exact ⟨k, rfl, by simp [countFailures]⟩

/-- `register_health_check` keeps a `SuccessfulCheckCount` state in that
constructor, bounded by the successes in the registered outcome. -/
theorem register_succ (o : Bool) (n : Nat) :
    ∃ r, HealthCheckStats.register_health_check o (.SuccessfulCheckCount n)
          = .SuccessfulCheckCount r ∧ r ≤ n + countSuccesses [o] := by
  cases o with
  | true =>
    cases n with
    | zero => exact ⟨1, rfl, by simp [countSuccesses]⟩
    | succ k => exact ⟨k + 2, rfl, by simp [countSuccesses]⟩
  | false =>
    cases n with
    | zero => exact ⟨0, rfl, by simp [countSuccesses]⟩
    | succ k => exact ⟨k, rfl, by simp [countSuccesses]⟩

theorem check_unsucc_stay (f s r : Nat)
    (h : ((HealthCheckStats.check_health f s (.UnsuccessfulCheckCount r)).1).isUnsuccessfulCount
          = true) :
    (HealthCheckStats.check_health f s (.UnsuccessfulCheckCount r)).1
      = .UnsuccessfulCheckCount r := by
  by_cases hf : r > f
  · exfalso
    simp [HealthCheckStats.check_health, hf, HealthCheckStats.isUnsuccessfulCount] at h
  · simp [HealthCheckStats.check_health, hf]

theorem check_succ_stay (f s r : Nat)
    (h : ((HealthCheckStats.check_health f s (.SuccessfulCheckCount r)).1).isSuccessfulCount
          = true) :
    (HealthCheckStats.check_health f s (.SuccessfulCheckCount r)).1
      = .SuccessfulCheckCount r := by
  by_cases hs : r > s
  · exfalso
    simp [HealthCheckStats.check_health, hs, HealthCheckStats.isSuccessfulCount] at h
  · simp [HealthCheckStats.check_health, hs]

theorem check_unsucc_demote (f s r : Nat)
    (h : ((HealthCheckStats.check_health f s (.UnsuccessfulCheckCount r)).1).isSuccessfulCount
          = true) :
    r > f := by
  by_cases hf : r > f
  · exact hf
  · exfalso
    simp [HealthCheckStats.check_health, hf, HealthCheckStats.isSuccessfulCount] at h

theorem check_succ_promote (f s r : Nat)
    (h : ((HealthCheckStats.check_health f s (.SuccessfulCheckCount r)).1).isUnsuccessfulCount
          = true) :
    r > s := by
  by_cases hs : r > s
  · exact hs
  · exfalso
    simp [HealthCheckStats.check_health, hs, HealthCheckStats.isUnsuccessfulCount] at h

theorem countFailures_append (l l' : List Bool) :
    countFailures (l ++ l') = countFailures l + countFailures l' := by
  simp [countFailures, List.filter_append]

theorem countSuccesses_append (l l' : List Bool) :
    countSuccesses (l ++ l') = countSuccesses l + countSuccesses l' := by
  simp [countSuccesses, List.filter_append]

/-- Along a probe run that never leaves the healthy constructor, the failure
counter is bounded by its start value plus the number of failed probes. -/
theorem unsuccCount_le_failures :
    ∀ (l : List Bool) (f s n m : Nat),
      (∀ pre ∈ l.inits,
        ((runProbes f s (.UnsuccessfulCheckCount n) pre).isUnsuccessfulCount = true)) →
      runProbes f s (.UnsuccessfulCheckCount n) l = .UnsuccessfulCheckCount m →
      m ≤ n + countFailures l := by
  intro l
  induction l with
  | nil =>
    intro f s n m _ hrun
    simp only [runProbes, List.foldl_nil] at hrun
    cases hrun
    simp [countFailures]
  | cons o l ih =>
    intro f s n m hseg hrun
    have h1 : ((probeStep f s (.UnsuccessfulCheckCount n) o).1).isUnsuccessfulCount = true := by
      have := hseg [o] (by
        rw [List.mem_inits]
        exact ⟨l, rfl⟩)
      simpa [runProbes] using this
    obtain ⟨r, hr, hrb⟩ := register_unsucc o n
    have hstep : (probeStep f s (.UnsuccessfulCheckCount n) o).1 = .UnsuccessfulCheckCount r := by
      rw [probeStep, hr]
      exact check_unsucc_stay f s r (by rw [probeStep, hr] at h1; exact h1)
    have hrun' : runProbes f s (.UnsuccessfulCheckCount r) l = .UnsuccessfulCheckCount m := by
      have : runProbes f s (.UnsuccessfulCheckCount n) (o :: l)
          = runProbes f s ((probeStep f s (.UnsuccessfulCheckCount n) o).1) l := rfl
      rw [this, hstep] at hrun
      exact hrun
    have hseg' : ∀ pre ∈ l.inits,
        ((runProbes f s (.UnsuccessfulCheckCount r) pre).isUnsuccessfulCount = true) := by
      intro pre hpre
      have hmem : (o :: pre) ∈ (o :: l).inits := by
        rw [List.mem_inits] at hpre ⊢
        exact List.cons_prefix_cons.mpr ⟨rfl, hpre⟩
      have := hseg (o :: pre) hmem
      have heq : runProbes f s (.UnsuccessfulCheckCount n) (o :: pre)
          = runProbes f s (.UnsuccessfulCheckCount r) pre := by
        show runProbes f s ((probeStep f s (.UnsuccessfulCheckCount n) o).1) pre = _
        rw [hstep]
      rw [heq] at this
      exact this
    have := ih f s r m hseg' hrun'
    have hcf : countFailures (o :: l) = countFailures [o] + countFailures l := by
      have : (o :: l) = [o] ++ l := rfl
      rw [this, countFailures_append]
    omega

/-- Along a probe run that never leaves the unhealthy constructor, the success
counter is bounded by its start value plus the number of successful probes. -/
theorem succCount_le_successes :
    ∀ (l : List Bool) (f s n m : Nat),
      (∀ pre ∈ l.inits,
        ((runProbes f s (.SuccessfulCheckCount n) pre).isSuccessfulCount = true)) →
      runProbes f s (.SuccessfulCheckCount n) l = .SuccessfulCheckCount m →
      m ≤ n + countSuccesses l := by
  intro l
  induction l with
  | nil =>
    intro f s n m _ hrun
    simp only [runProbes, List.foldl_nil] at hrun
    cases hrun
    simp [countSuccesses]
  | cons o l ih =>
    intro f s n m hseg hrun
    have h1 : ((probeStep f s (.SuccessfulCheckCount n) o).1).isSuccessfulCount = true := by
      have := hseg [o] (by
        rw [List.mem_inits]
        exact ⟨l, rfl⟩)
      simpa [runProbes] using this
    obtain ⟨r, hr, hrb⟩ := register_succ o n
    have hstep : (probeStep f s (.SuccessfulCheckCount n) o).1 = .SuccessfulCheckCount r := by
      rw [probeStep, hr]
      exact check_succ_stay f s r (by rw [probeStep, hr] at h1; exact h1)
    have hrun' : runProbes f s (.SuccessfulCheckCount r) l = .SuccessfulCheckCount m := by
      have : runProbes f s (.SuccessfulCheckCount n) (o :: l)
          = runProbes f s ((probeStep f s (.SuccessfulCheckCount n) o).1) l := rfl
      rw [this, hstep] at hrun
      exact hrun
    have hseg' : ∀ pre ∈ l.inits,
        ((runProbes f s (.SuccessfulCheckCount r) pre).isSuccessfulCount = true) := by
      intro pre hpre
      have hmem : (o :: pre) ∈ (o :: l).inits := by
        rw [List.mem_inits] at hpre ⊢
        exact List.cons_prefix_cons.mpr ⟨rfl, hpre⟩
      have := hseg (o :: pre) hmem
      have heq : runProbes f s (.SuccessfulCheckCount n) (o :: pre)
          = runProbes f s (.SuccessfulCheckCount r) pre := by
        show runProbes f s ((probeStep f s (.SuccessfulCheckCount n) o).1) pre = _
        rw [hstep]
      rw [heq] at this
      exact this
    have := ih f s r m hseg' hrun'
    have hcs : countSuccesses (o :: l) = countSuccesses [o] + countSuccesses l := by
      have : (o :: l) = [o] ++ l := rfl
      rw [this, countSuccesses_append]
    omega

/-- Claim C2, counterexample: configuration with `failure_threshold = 3` and
`success_threshold = 1`. `TargetGroupHealthCheck::new` fills the target's
`failure_threshold` field from the configuration's `success_threshold` (the
assignments are swapped), and the clamped counter forgets successes: after the
outcome sequence success, success, failure, failure the target — healthy at
every intermediate stage — is demoted to unhealthy although only 2 failures
and 2 successes occurred since the last classification change, i.e. 0 more
failures than successes, far below the configured failure threshold 3. -/
theorem c2_counterexample :
    (newHealthCheckTarget ⟨[], true, 1, 1, 1, 3⟩).failure_threshold = 1
    ∧ (newHealthCheckTarget ⟨[], true, 1, 1, 1, 3⟩).success_threshold = 3
    ∧ (newHealthCheckTarget ⟨[], true, 1, 1, 1, 3⟩).health_check_stats
        = .UnsuccessfulCheckCount 0
    ∧ runProbes 1 3 HealthCheckStats.new_healthy [true] = .UnsuccessfulCheckCount 0
    ∧ runProbes 1 3 HealthCheckStats.new_healthy [true, true] = .UnsuccessfulCheckCount 0
    ∧ runProbes 1 3 HealthCheckStats.new_healthy [true, true, false] = .UnsuccessfulCheckCount 1
    ∧ runProbes 1 3 HealthCheckStats.new_healthy [true, true, false, false]
        = .SuccessfulCheckCount 0
    ∧ countFailures [true, true, false, false] = 2
    ∧ countSuccesses [true, true, false, false] = 2
    ∧ ¬(countFailures [true, true, false, false]
        ≥ countSuccesses [true, true, false, false] + 3) := by
  decide

/-- Claim C2, amended: a `HealthCheckTarget` constructed from a health-check
configuration is never reclassified from healthy to unhealthy unless strictly
more than the configuration's `success_threshold` failed probes have occurred
since the last classification change (the constructor swaps the two
thresholds, and the clamped counter means successes need not be outnumbered);
symmetrically, promotion from unhealthy to healthy requires strictly more
than the configuration's `failure_threshold` successful probes since the last
classification change. -/
theorem c2_thm (cfg : TargetGroupHealthCheckConfiguration) (l : List Bool) (o : Bool) :
    ((∀ pre ∈ l.inits,
        ((runProbes (newHealthCheckTarget cfg).failure_threshold
            (newHealthCheckTarget cfg).success_threshold
            (newHealthCheckTarget cfg).health_check_stats pre).isUnsuccessfulCount = true)) →
      ((probeStep (newHealthCheckTarget cfg).failure_threshold
          (newHealthCheckTarget cfg).success_threshold
          (runProbes (newHealthCheckTarget cfg).failure_threshold
            (newHealthCheckTarget cfg).success_threshold
            (newHealthCheckTarget cfg).health_check_stats l) o).1).isSuccessfulCount = true →
      countFailures (l ++ [o]) > cfg.success_threshold)
    ∧ ((∀ pre ∈ l.inits,
        ((runProbes (newHealthCheckTarget cfg).failure_threshold
            (newHealthCheckTarget cfg).success_threshold
            (.SuccessfulCheckCount 0) pre).isSuccessfulCount = true)) →
      ((probeStep (newHealthCheckTarget cfg).failure_threshold
          (newHealthCheckTarget cfg).success_threshold
          (runProbes (newHealthCheckTarget cfg).failure_threshold
            (newHealthCheckTarget cfg).success_threshold
            (.SuccessfulCheckCount 0) l) o).1).isUnsuccessfulCount = true →
      countSuccesses (l ++ [o]) > cfg.failure_threshold) := by
  have hf : (newHealthCheckTarget cfg).failure_threshold = cfg.success_threshold := rfl
  have hs : (newHealthCheckTarget cfg).success_threshold = cfg.failure_threshold := rfl
  have hst : (newHealthCheckTarget cfg).health_check_stats = .UnsuccessfulCheckCount 0 := rfl
  constructor
  · intro hseg hdem
    rw [hst] at hseg hdem
    have hlast := hseg l (by rw [List.mem_inits])
    cases hend : runProbes (newHealthCheckTarget cfg).failure_threshold
        (newHealthCheckTarget cfg).success_threshold (.UnsuccessfulCheckCount 0) l with
    | SuccessfulCheckCount m =>
      rw [hend] at hlast
      simp [HealthCheckStats.isUnsuccessfulCount] at hlast
    | UnsuccessfulCheckCount m =>
      have hm := unsuccCount_le_failures l (newHealthCheckTarget cfg).failure_threshold
        (newHealthCheckTarget cfg).success_threshold 0 m hseg hend
      rw [hend] at hdem
      obtain ⟨r, hr, hrb⟩ := register_unsucc o m
      rw [probeStep, hr] at hdem
      have hgt := check_unsucc_demote (newHealthCheckTarget cfg).failure_threshold
        (newHealthCheckTarget cfg).success_threshold r hdem
      rw [hf] at hgt
      rw [countFailures_append]
      have hcf1 : countFailures [o] ≤ 1 := by cases o <;> simp [countFailures]
      omega
  · intro hseg hpro
    have hlast := hseg l (by rw [List.mem_inits])
    cases hend : runProbes (newHealthCheckTarget cfg).failure_threshold
        (newHealthCheckTarget cfg).success_threshold (.SuccessfulCheckCount 0) l with
    | UnsuccessfulCheckCount m =>
      rw [hend] at hlast
      simp [HealthCheckStats.isSuccessfulCount] at hlast
    | SuccessfulCheckCount m =>
      have hm := succCount_le_successes l (newHealthCheckTarget cfg).failure_threshold
        (newHealthCheckTarget cfg).success_threshold 0 m hseg hend
      rw [hend] at hpro
      obtain ⟨r, hr, hrb⟩ := register_succ o m
      rw [probeStep, hr] at hpro
      have hgt := check_succ_promote (newHealthCheckTarget cfg).failure_threshold
        (newHealthCheckTarget cfg).success_threshold r hpro
      rw [hs] at hgt
      rw [countSuccesses_append]
      have hcs1 : countSuccesses [o] ≤ 1 := by cases o <;> simp [countSuccesses]
      omega

theorem c2_witness :
    countFailures [false, false] > 1 ∧ countSuccesses [true, true, true, true] > 3 :=
  ⟨(c2_thm ⟨[], true, 1, 1, 1, 3⟩ [false] false).1 (by decide) (by decide),
   (c2_thm ⟨[], true, 1, 1, 1, 3⟩ [true, true, true] true).2 (by decide) (by decide)⟩

/-- Claim C3, confirmed: for a request whose path strips rule rewrite `w` to
`S`, the forwarded URI's path-and-query is `/S'` for an empty graft URI and
`/G/S'` otherwise (`S'` the remainder with leading `'/'` trimmed), with the
query reattached verbatim after `?` and the inbound scheme and authority
carried over when present. -/
theorem c3_thm (w g : Str) (req : InboundRequest) (stripped : Str)
    (h : stripPre w req.path = some stripped) :
    rewriteUri w g req = some
      { path_and_query :=
          (if g = [] then '/' :: trimStartSlashes stripped
           else '/' :: (g ++ '/' :: trimStartSlashes stripped))
          ++ (match req.query with
              | none => []
              | some q => '?' :: q),
        scheme := req.scheme,
        authority := req.authority } := by
  unfold rewriteUri
  rw [h]
  cases hq : req.query with
  | none => simp
  | some q => simp

theorem c3_witness :
    rewriteUri ['/', 'a'] ['v']
      ⟨some ['h'], some ['x'], ['/', 'a', '/', 'b'], some ['q']⟩
      = some ⟨['/', 'v', '/', 'b', '?', 'q'], some ['h'], some ['x']⟩ := by
  have h := c3_thm ['/', 'a'] ['v']
    ⟨some ['h'], some ['x'], ['/', 'a', '/', 'b'], some ['q']⟩ ['/', 'b'] (by decide)
  rw [h]
  decide

/-- Claim C5, counterexample: with a non-empty healthy pool, a successful
borrow and a successful rewrite, an upstream send error makes
`ListenerRuleHandler::handle_connection` hit
`response_result.expect("Failed to send request")` — a panic, not an HTTP
response — contradicting both the claimed 502 and the noted current 500. -/
theorem c5_counterexample :
    handleRule [⟨true, []⟩] 0 ['/'] ⟨none, none, ['/', 'x'], none⟩ .sendError
      = .panic_ "Failed to send request"
    ∧ handleRule [⟨true, []⟩] 0 ['/'] ⟨none, none, ['/', 'x'], none⟩ .sendError
      ≠ .reply ⟨502, []⟩
    ∧ handleRule [⟨true, []⟩] 0 ['/'] ⟨none, none, ['/', 'x'], none⟩ .sendError
      ≠ .reply ⟨500, []⟩ := by
  decide

/-- Claim C5, amended: per-request errors map to match miss → 404, empty
healthy list → 503, pool borrow failure → 500, forward timeout → 504; an
upstream send error or a response-body collection error is not mapped to any
HTTP status — the handler panics. -/
theorem c5_thm (keys : List Str) (handlers : Str → InboundRequest → HttpResponse)
    (now : Nat) (req : InboundRequest) (pool : List PoolEntry) (counter : Nat)
    (w : Str) (c : PoolEntry) (u : ForwardUri) :
    (match_uri keys req.path = none →
      (LoadBalancer.handleConnection keys handlers none now req).1 = ⟨404, []⟩)
    ∧ (∀ ev, handleRule [] counter w req ev = .reply ⟨503, []⟩)
    ∧ (pool.get? (counter % pool.length) = some c → c.borrowOk = false →
        ∀ ev, handleRule pool counter w req ev = .reply ⟨500, []⟩)
    ∧ (pool.get? (counter % pool.length) = some c → c.borrowOk = true →
        rewriteUri w c.uri req = some u →
        handleRule pool counter w req .timeout = .reply ⟨504, []⟩)
    ∧ (pool.get? (counter % pool.length) = some c → c.borrowOk = true →
        rewriteUri w c.uri req = some u →
        handleRule pool counter w req .sendError = .panic_ "Failed to send request"
        ∧ handleRule pool counter w req .bodyError = .panic_ "Failed to get body") := by
  refine ⟨?_, ?_, ?_, ?_, ?_⟩
  · intro h
    simp [LoadBalancer.handleConnection, h]
  · intro ev
    simp [handleRule]
  · intro hget hbor ev
    have hne : ¬(pool.length = 0) := by
      intro h0
      rw [List.length_eq_zero] at h0
      subst h0
      simp at hget
    have hget' : pool[counter % pool.length]? = some c := by
      rw [← List.get?_eq_getElem?]
      exact hget
    simp [handleRule, hne, hget', hbor]
  · intro hget hbor hrw
    have hne : ¬(pool.length = 0) := by
      intro h0
      rw [List.length_eq_zero] at h0
      subst h0
      simp at hget
    have hget' : pool[counter % pool.length]? = some c := by
      rw [← List.get?_eq_getElem?]
      exact hget
    simp [handleRule, hne, hget', hbor, hrw]
  · intro hget hbor hrw
    have hne : ¬(pool.length = 0) := by
      intro h0
      rw [List.length_eq_zero] at h0
      subst h0
      simp at hget
    have hget' : pool[counter % pool.length]? = some c := by
      rw [← List.get?_eq_getElem?]
      exact hget
    constructor <;> simp [handleRule, hne, hget', hbor, hrw]

theorem c5_witness :
    (LoadBalancer.handleConnection [['/', 'a', '/']] (fun _ _ => ⟨200, []⟩) none 0
        ⟨none, none, ['/', 'x'], none⟩).1 = ⟨404, []⟩
    ∧ handleRule [] 0 ['/'] ⟨none, none, ['/', 'x'], none⟩ .timeout = .reply ⟨503, []⟩
    ∧ handleRule [⟨false, []⟩] 0 ['/'] ⟨none, none, ['/', 'x'], none⟩ .timeout
        = .reply ⟨500, []⟩
    ∧ handleRule [⟨true, []⟩] 0 ['/'] ⟨none, none, ['/', 'x'], none⟩ .timeout
        = .reply ⟨504, []⟩
    ∧ handleRule [⟨true, []⟩] 0 ['/'] ⟨none, none, ['/', 'x'], none⟩ .bodyError
        = .panic_ "Failed to get body" :=
  ⟨(c5_thm [['/', 'a', '/']] (fun _ _ => ⟨200, []⟩) 0 ⟨none, none, ['/', 'x'], none⟩
      [] 0 ['/'] ⟨true, []⟩ ⟨['/', 'x'], none, none⟩).1 (by decide),
   (c5_thm [] (fun _ _ => ⟨200, []⟩) 0 ⟨none, none, ['/', 'x'], none⟩
      [] 0 ['/'] ⟨true, []⟩ ⟨['/', 'x'], none, none⟩).2.1 .timeout,
   (c5_thm [] (fun _ _ => ⟨200, []⟩) 0 ⟨none, none, ['/', 'x'], none⟩
      [⟨false, []⟩] 0 ['/'] ⟨false, []⟩ ⟨['/', 'x'], none, none⟩).2.2.1 (by decide) (by decide)
      .timeout,
   (c5_thm [] (fun _ _ => ⟨200, []⟩) 0 ⟨none, none, ['/', 'x'], none⟩
      [⟨true, []⟩] 0 ['/'] ⟨true, []⟩ ⟨['/', 'x'], none, none⟩).2.2.2.1 (by decide) (by decide)
      (by decide),
   ((c5_thm [] (fun _ _ => ⟨200, []⟩) 0 ⟨none, none, ['/', 'x'], none⟩
      [⟨true, []⟩] 0 ['/'] ⟨true, []⟩ ⟨['/', 'x'], none, none⟩).2.2.2.2 (by decide) (by decide)
      (by decide)).2⟩

/-- Claim C6, counterexample: a cache-enabled load balancer handling the
unmatched request `/x` (empty cache beforehand) responds 404 with empty body
but *stores* that 404 in the cache (load_balancer.rs:120-122 runs
`cache.set` on every computed response): the cache contents afterwards
differ from the contents before. -/
theorem c6_counterexample :
    LoadBalancer.handleConnection [['/', 'a', '/']] (fun _ _ => ⟨200, []⟩)
        (some ⟨[], 10⟩) 5 ⟨none, none, ['/', 'x'], none⟩
      = (⟨404, []⟩, some ⟨[(['/', 'x'], ⟨⟨404, []⟩, 5⟩)], 10⟩)
    ∧ (some (⟨[(['/', 'x'], ⟨⟨404, []⟩, 5⟩)], 10⟩ : RequestCache)
        ≠ some (⟨[], 10⟩ : RequestCache)) := by
  decide

/-- Claim C6, amended: when no rule matches and the request is not served
from the cache, the response is `404 NOT_FOUND` with empty body, and the 404
response *is* stored in the cache under the request URI (the source caches
every computed response, 404 included). -/
theorem c6_thm (keys : List Str) (handlers : Str → InboundRequest → HttpResponse)
    (c : RequestCache) (now : Nat) (req : InboundRequest)
    (hmiss : c.get (renderUri req) = none)
    (hmatch : match_uri keys req.path = none) :
    LoadBalancer.handleConnection keys handlers (some c) now req
      = (⟨404, []⟩, some (c.set (renderUri req) ⟨404, []⟩ now)) := by
  simp [LoadBalancer.handleConnection, hmiss, hmatch]

theorem c6_witness :
    LoadBalancer.handleConnection [['/', 'a', '/']] (fun _ _ => ⟨200, []⟩)
        (some ⟨[], 10⟩) 5 ⟨none, none, ['/', 'y'], none⟩
      = (⟨404, []⟩, some (RequestCache.set ⟨[], 10⟩
          (renderUri ⟨none, none, ['/', 'y'], none⟩) ⟨404, []⟩ 5)) :=
  c6_thm [['/', 'a', '/']] (fun _ _ => ⟨200, []⟩) ⟨[], 10⟩ 5
    ⟨none, none, ['/', 'y'], none⟩ (by decide) (by decide)

/-- Claim C7: the promotion pass `check_unhealthy_connection_pools` as
written is a duplicate of the demotion pass, not its mirror. First conjunct:
an unhealthy target (identifier 2) whose probes report it healthy again is
*not* moved — the state is unchanged, no promotion ever happens. Second
conjunct: when the unhealthy target is still unhealthy, the pass removes the
pool and target at that index from the *healthy* lists and appends them to
the unhealthy lists, demoting a healthy upstream instead of promoting. -/
theorem c7_thm :
    check_unhealthy_connection_pools (fun _ => true)
        ⟨[10], [20], [1], [2]⟩ = some ⟨[10], [20], [1], [2]⟩
    ∧ check_unhealthy_connection_pools (fun _ => false)
        ⟨[10], [20], [1], [2]⟩ = some ⟨[], [20, 10], [], [2, 1]⟩ := by
  decide

/-- `trimStartSlashes` output is empty or starts with a non-slash. -/
theorem trimStart_head (s : Str) :
    trimStartSlashes s = [] ∨ ∃ d ds, trimStartSlashes s = d :: ds ∧ d ≠ '/' := by
  induction s with
  | nil => left; rfl
  | cons c rest ih =>
    by_cases hc : c = '/'
    · simpa [trimStartSlashes, hc] using ih
    · right
      exact ⟨c, rest, by simp [trimStartSlashes, hc], hc⟩

/-- Composing the listener.rs canonicalization with the `trim_end_matches`
in `LoadBalancer::new`: on `'/' :: core` (with `core` already fully trimmed)
the trailing trim is the identity unless `core` is empty, in which case it
yields the empty string. -/
theorem trimEnd_slash_cons (raw : Str) :
    trimEndSlashes ('/' :: trimEndSlashes (trimStartSlashes raw))
      = if trimEndSlashes (trimStartSlashes raw) = [] then []
        else '/' :: trimEndSlashes (trimStartSlashes raw) := by
  by_cases hc : trimEndSlashes (trimStartSlashes raw) = []
  · rw [hc]
    decide
  · rw [if_neg hc]
    set c := trimEndSlashes (trimStartSlashes raw) with hcdef
    have hcrev : c.reverse = trimStartSlashes ((trimStartSlashes raw).reverse) := by
      rw [hcdef]
      unfold trimEndSlashes
      exact List.reverse_reverse _
    rcases trimStart_head ((trimStartSlashes raw).reverse) with h0 | ⟨d, ds, hd, hne⟩
    · exfalso
      apply hc
      have hr : c.reverse = [] := by rw [hcrev, h0]
      simpa using congrArg List.reverse hr
    · have hrev : c.reverse = d :: ds := by rw [hcrev, hd]
      show (trimStartSlashes (('/' :: c).reverse)).reverse = '/' :: c
      rw [List.reverse_cons, hrev, List.cons_append]
      rw [show trimStartSlashes (d :: (ds ++ ['/'])) = d :: (ds ++ ['/']) from by
        simp [trimStartSlashes, hne]]
      rw [← List.cons_append, ← hrev, List.reverse_append, List.reverse_reverse]
      rfl

/-- The stored match key of a configured rule, in the form described by the
spec: strip leading/trailing slashes, re-prepend `'/'`, append `'/'` (the
empty-core rule degenerates to the bare key `"/"`). -/
theorem matchKey_from_configuration (cfg : ListenerRuleConfiguration) :
    matchKey (ruleFromConfiguration cfg)
      = if trimEndSlashes (trimStartSlashes cfg.path_pre) = [] then ['/']
        else ('/' :: trimEndSlashes (trimStartSlashes cfg.path_pre)) ++ ['/'] := by
  show trimEndSlashes ('/' :: trimEndSlashes (trimStartSlashes cfg.path_pre)) ++ ['/'] = _
  rw [trimEnd_slash_cons]
  by_cases hc : trimEndSlashes (trimStartSlashes cfg.path_pre) = [] <;> simp [hc]

/-- A configured rule's canonical path-prefix is a list-prefix of its stored
match key. -/
theorem canonPre_le_key (cfg : ListenerRuleConfiguration) :
    (ruleFromConfiguration cfg).path_pre <+: matchKey (ruleFromConfiguration cfg) := by
  rw [matchKey_from_configuration]
  by_cases hc : trimEndSlashes (trimStartSlashes cfg.path_pre) = []
  · rw [if_pos hc]
    show ('/' :: trimEndSlashes (trimStartSlashes cfg.path_pre)) <+: ['/']
    rw [hc]
  · rw [if_neg hc]
    exact ⟨['/'], rfl⟩

/-- Claim C9, counterexample: the rule configured with `path_prefix = "/a"`
and `path_rewrite = "/b"` matches the request path `/a/x` (stored key
`"/a/"`), but stripping the rewrite `"/b"` from `/a/x` fails, and the
handler hits the `expect` panic — the failure branch of the strip is
reachable for rules whose rewrite differs from their prefix. -/
theorem c9_counterexample :
    matchKey (ruleFromConfiguration ⟨['g'], ['/', 'a'], ['/', 'b']⟩) = ['/', 'a', '/']
    ∧ match_uri (buildKeys [ruleFromConfiguration ⟨['g'], ['/', 'a'], ['/', 'b']⟩])
        ['/', 'a', '/', 'x'] = some ['/', 'a', '/']
    ∧ stripPre (ruleFromConfiguration ⟨['g'], ['/', 'a'], ['/', 'b']⟩).path_rewrite
        ['/', 'a', '/', 'x'] = none
    ∧ handleRule [⟨true, []⟩] 0
        (ruleFromConfiguration ⟨['g'], ['/', 'a'], ['/', 'b']⟩).path_rewrite
        ⟨none, none, ['/', 'a', '/', 'x'], none⟩ .timeout
      = .panic_ "Failed to strip prefix for matched path. This should not happen." := by
  decide

/-- Claim C9, amended: for every configured rule whose canonicalized
`path_rewrite` equals its canonicalized `path_prefix`, stripping the rewrite
from any request path matched by the rule's stored key succeeds; the strip
can fail (and panic) only for rules whose rewrite differs from their prefix. -/
theorem c9_thm (cfg : ListenerRuleConfiguration) (path : Str)
    (hrw : (ruleFromConfiguration cfg).path_rewrite = (ruleFromConfiguration cfg).path_pre)
    (hmatch : (matchKey (ruleFromConfiguration cfg)).isPrefixOf path = true) :
    (stripPre (ruleFromConfiguration cfg).path_rewrite path).isSome = true := by
  rw [hrw]
  rw [ List.isPrefixOf_iff_prefix] at hmatch
  have hpp : (ruleFromConfiguration cfg).path_pre <+: path :=
    (canonPre_le_key cfg).trans hmatch
  have hb : (ruleFromConfiguration cfg).path_pre.isPrefixOf path = true :=
    List.isPrefixOf_iff_prefix.mpr hpp
  simp [stripPre, hb]

theorem c9_witness :
    (stripPre (ruleFromConfiguration ⟨['g'], ['/', 'a'], ['a']⟩).path_rewrite
      ['/', 'a', '/', 'x']).isSome = true :=
  c9_thm ⟨['g'], ['/', 'a'], ['a']⟩ ['/', 'a', '/', 'x'] (by decide) (by decide)

/-- In a descending-sorted key list, the first key that is a string prefix of
the path is a longest such key. -/
theorem find_first_longest (path : Str) :
    ∀ (l : List Str) (k : Str),
      l.Pairwise (fun a b => lexLt a b = false) →
      l.find? (fun r => r.isPrefixOf path) = some k →
      k.isPrefixOf path = true
      ∧ ∀ k' ∈ l, k'.isPrefixOf path = true → k'.length ≤ k.length := by
  intro l
  induction l with
  | nil =>
    intro k _ hf
    simp [List.find?] at hf
  | cons x xs ih =>
    intro k hpw hf
    cases hx : x.isPrefixOf path with
    | false =>
      have hf' : xs.find? (fun r => r.isPrefixOf path) = some k := by
        rwa [List.find?_cons_of_neg _ (by simp [hx])] at hf
      obtain ⟨hk, hall⟩ := ih k hpw.of_cons hf'
      refine ⟨hk, ?_⟩
      intro k' hk' hkp
      rcases List.mem_cons.mp hk' with rfl | hmem
      · rw [hkp] at hx
        exact Bool.noConfusion hx
      · exact hall k' hmem hkp
    | true =>
      have hkx : k = x := by
        rw [List.find?_cons_of_pos _ (by simp [hx])] at hf
        exact (Option.some.inj hf).symm
      subst hkx
      refine ⟨hx, ?_⟩
      intro k' hk' hkp
      rcases List.mem_cons.mp hk' with rfl | hmem
      · exact le_refl _
      · have hrel : lexLt k k' = false := (List.pairwise_cons.mp hpw).1 k' hmem
        by_contra hlen
        push_neg at hlen
        have hxp : k <+: path := List.isPrefixOf_iff_prefix.mp hx
        have hkp' : k' <+: path := List.isPrefixOf_iff_prefix.mp hkp
        have hxk : k <+: k' := by
          rcases List.prefix_or_prefix_of_prefix hxp hkp' with h | h
          · exact h
          · exact absurd h.length_le (by omega)
        have hne : k ≠ k' := by
          intro he
          rw [he] at hlen
          omega
        have hlt := lexLt_of_proper_pre k k' hxk hne
        rw [hlt] at hrel
        exact Bool.noConfusion hrel

/-- The key list built by `LoadBalancer::new` is descending in the string
order. -/
theorem buildKeys_pairwise (rules : List ListenerRule) :
    (buildKeys rules).Pairwise (fun a b => lexLt a b = false) := by
  unfold buildKeys
  rw [List.pairwise_reverse]
  exact List.sorted_insertionSort lexLe (rules.map matchKey)

/-- The key list built by `LoadBalancer::new` is a permutation of the rules'
match keys. -/
theorem buildKeys_perm (rules : List ListenerRule) :
    List.Perm (buildKeys rules) (rules.map matchKey) := by
  unfold buildKeys
  exact (List.reverse_perm _).trans (List.perm_insertionSort lexLe _)

/-- Claim C4, confirmed: each configured prefix is canonicalized to
`'/' ++ core ++ '/'` (leading/trailing slashes stripped, `'/'` re-prepended,
trailing `'/'` appended); the matcher's stored list is descending-sorted and
holds exactly the canonical keys; the first string-prefix hit is a longest
matching key; and concretely rules `/a`, `/a/b` send `/a/b/x` to `/a/b/`
while the rule `/api` matches `/api/x` but not `/apiary`. -/
theorem c4_thm (cfg : ListenerRuleConfiguration) (rules : List ListenerRule)
    (path k : Str) :
    (trimEndSlashes (trimStartSlashes cfg.path_pre) ≠ [] →
      matchKey (ruleFromConfiguration cfg)
        = ('/' :: trimEndSlashes (trimStartSlashes cfg.path_pre)) ++ ['/'])
    ∧ (buildKeys rules).Pairwise (fun a b => lexLt a b = false)
    ∧ List.Perm (buildKeys rules) (rules.map matchKey)
    ∧ (match_uri (buildKeys rules) path = some k →
        k.isPrefixOf path = true
        ∧ ∀ k' ∈ buildKeys rules, k'.isPrefixOf path = true → k'.length ≤ k.length)
    ∧ match_uri (buildKeys [ruleFromConfiguration ⟨['g'], ['/', 'a'], []⟩,
        ruleFromConfiguration ⟨['g'], ['/', 'a', '/', 'b'], []⟩])
        ['/', 'a', '/', 'b', '/', 'x'] = some ['/', 'a', '/', 'b', '/']
    ∧ match_uri (buildKeys [ruleFromConfiguration ⟨['g'], ['/', 'a', 'p', 'i'], []⟩])
        ['/', 'a', 'p', 'i', '/', 'x'] = some ['/', 'a', 'p', 'i', '/']
    ∧ match_uri (buildKeys [ruleFromConfiguration ⟨['g'], ['/', 'a', 'p', 'i'], []⟩])
        ['/', 'a', 'p', 'i', 'a', 'r', 'y'] = none := by
  refine ⟨?_, buildKeys_pairwise rules, buildKeys_perm rules, ?_, by decide, by decide,
    by decide⟩
  · intro hc
    rw [matchKey_from_configuration, if_neg hc]
  · intro hm
    exact find_first_longest path (buildKeys rules) k (buildKeys_pairwise rules) hm

theorem c4_witness :
    matchKey (ruleFromConfiguration ⟨['g'], ['/', 'a'], []⟩)
      = ('/' :: trimEndSlashes (trimStartSlashes ['/', 'a'])) ++ ['/']
    ∧ (['/', 'a', '/', 'b', '/'] : Str).isPrefixOf ['/', 'a', '/', 'b', '/', 'x'] = true :=
  ⟨(c4_thm ⟨['g'], ['/', 'a'], []⟩ [] [] []).1 (by decide),
   ((c4_thm ⟨['g'], ['/', 'a'], []⟩
      [ruleFromConfiguration ⟨['g'], ['/', 'a'], []⟩,
       ruleFromConfiguration ⟨['g'], ['/', 'a', '/', 'b'], []⟩]
      ['/', 'a', '/', 'b', '/', 'x'] ['/', 'a', '/', 'b', '/']).2.2.2.1 (by decide)).1⟩

/-- `find?` over a non-empty list whose elements all equal `k` yields `k`
exactly when `k` satisfies the predicate. -/
theorem find_all_eq (p : Str → Bool) :
    ∀ (l : List Str) (k : Str), l ≠ [] → (∀ x ∈ l, x = k) →
      l.find? p = if p k then some k else none := by
  intro l
  induction l with
  | nil =>
    intro k h _
    exact absurd rfl h
  | cons x xs ih =>
    intro k _ hall
    have hx : x = k := hall x (by simp)
    subst hx
    cases hpk : p x with
    | false =>
      rw [List.find?_cons_of_neg _ (by simp [hpk]), if_neg (by simp [hpk])]
      by_cases hxs : xs = []
      · subst hxs
        rfl
      · rw [ih x hxs (fun y hy => hall y (by simp [hy])), if_neg (by simp [hpk])]
    | true =>
      rw [List.find?_cons_of_pos _ (by simp [hpk]), if_pos (by simp [hpk])]

/-- Claim C10, confirmed: for a rule set whose rules all share the canonical
prefix `'/' ++ core` (with non-empty core), the stored keys are all
`'/' ++ core ++ '/'`; a request whose path is exactly `'/' ++ core` matches
no rule — the key is one character longer than the path — so the load
balancer answers `404 NOT_FOUND` with empty body, while the path
`'/' ++ core ++ "/x"` does match that key. -/
theorem c10_thm (cfgs : List ListenerRuleConfiguration) (core : Str)
    (handlers : Str → InboundRequest → HttpResponse) (now : Nat)
    (hne : cfgs ≠ []) (hcore : core ≠ [])
    (hall : ∀ c ∈ cfgs, trimEndSlashes (trimStartSlashes c.path_pre) = core) :
    match_uri (buildKeys (cfgs.map ruleFromConfiguration)) ('/' :: core) = none
    ∧ (LoadBalancer.handleConnection (buildKeys (cfgs.map ruleFromConfiguration))
        handlers none now ⟨none, none, '/' :: core, none⟩).1 = ⟨404, []⟩
    ∧ match_uri (buildKeys (cfgs.map ruleFromConfiguration)) (('/' :: core) ++ ['/', 'x'])
        = some (('/' :: core) ++ ['/']) := by
  have hkeys : ∀ x ∈ buildKeys (cfgs.map ruleFromConfiguration),
      x = ('/' :: core) ++ ['/'] := by
    intro x hx
    have hx' : x ∈ (cfgs.map ruleFromConfiguration).map matchKey :=
      (buildKeys_perm (cfgs.map ruleFromConfiguration)).mem_iff.mp hx
    rw [List.map_map] at hx'
    obtain ⟨c, hc, hcx⟩ := List.mem_map.mp hx'
    have hcanon := matchKey_from_configuration c
    rw [hall c hc, if_neg hcore] at hcanon
    rw [← hcx]
    exact hcanon
  have hnonempty : buildKeys (cfgs.map ruleFromConfiguration) ≠ [] := by
    intro h0
    apply hne
    have hlen := (buildKeys_perm (cfgs.map ruleFromConfiguration)).length_eq
    rw [h0] at hlen
    simp at hlen
    exact List.length_eq_zero.mp hlen.symm
  have hmiss : ¬((core ++ ['/']) <+: core) := by
    intro hcontra
    have hlen := hcontra.length_le
    simp only [List.length_append, List.length_cons] at hlen
    omega
  have h1 : match_uri (buildKeys (cfgs.map ruleFromConfiguration)) ('/' :: core) = none := by
    unfold match_uri
    rw [find_all_eq (fun r => r.isPrefixOf ('/' :: core)) _ (('/' :: core) ++ ['/'])
      hnonempty hkeys]
    simp [hmiss]
  refine ⟨h1, ?_, ?_⟩
  · simp [LoadBalancer.handleConnection, h1]
  · have hhit : (('/' :: core) ++ ['/']) <+: (('/' :: core) ++ ['/', 'x']) :=
      ⟨['x'], by simp⟩
    unfold match_uri
    rw [find_all_eq (fun r => r.isPrefixOf (('/' :: core) ++ ['/', 'x'])) _
      (('/' :: core) ++ ['/']) hnonempty hkeys]
    simp [hhit]

theorem c10_witness :
    match_uri (buildKeys (List.map ruleFromConfiguration
        [⟨['g'], ['/', 'p'], []⟩])) ['/', 'p'] = none
    ∧ (LoadBalancer.handleConnection
        (buildKeys (List.map ruleFromConfiguration [⟨['g'], ['/', 'p'], []⟩]))
        (fun _ _ => ⟨200, []⟩) none 0 ⟨none, none, ['/', 'p'], none⟩).1 = ⟨404, []⟩
    ∧ match_uri (buildKeys (List.map ruleFromConfiguration
        [⟨['g'], ['/', 'p'], []⟩])) ['/', 'p', '/', 'x'] = some ['/', 'p', '/'] := by
  have h := c10_thm [⟨['g'], ['/', 'p'], []⟩] ['p'] (fun _ _ => ⟨200, []⟩) 0
    (by decide) (by decide) (by decide)
  exact ⟨h.1, h.2.1, h.2.2⟩
